import Mathlib

/-!
Verification of the TaskFlow client telemetry pipeline
(`src/frontend/frontend/src/main.jsx`): the durable client buffer,
the flush scheduler with its disable-on-failure circuit breaker,
the analytics aggregation (`buildAnalytics`) and the proactive
suggestion rules (`ProactiveSuggestions`).

The JavaScript source is embedded shallowly: the module-level mutable
state of the `Telemetry` IIFE becomes an explicit state record
(`TelState`), `localStorage` / `sessionStorage` become `Option`-valued
fields, the outcome of the `fetch` in `flush` and the success of
`localStorage.setItem` become explicit oracle parameters, and the two
ambient quantities read by `buildAnalytics` (the current calendar day
and the local-hour extraction of a timestamp string) become explicit
parameters `todayStr` and `hourOf`.
-/

namespace TaskFlow

/-- `BUF_MAX` from the source: the persisted-buffer cap. -/
def BUF_MAX : Nat := 2000

/-- The open `data` payload of an event; the aggregation only ever reads
`data?.ms || 0`, so only the `ms` field is material. -/
structure EvData where
  ms : Option Nat
deriving Repr, DecidableEq

/-- One telemetry event, as built by `Telemetry.log`. -/
structure Event where
  id : String
  «at» : String
  type : String
  session : String
  user : Option String
  data : EvData
deriving Repr, DecidableEq

/-- `e.data?.ms || 0` from the source. -/
def msOf (e : Event) : Nat := e.data.ms.getD 0

/-- One task row as consumed by the analytics code. Timestamp fields use
`""` for absent values, mirroring how JavaScript `||` treats both
`undefined` and the empty string as falsy in `(t.updated_at || t.created_at || "")`. -/
structure Task where
  status : String
  updated_at : String
  created_at : String
  deadline : Option String
deriving Repr, DecidableEq

/-- JavaScript `a || b` on strings where only `""` is falsy. -/
def jsOr (a b : String) : String := if a = "" then b else a

/-- `arr.slice(-n)` on a JavaScript array: the last `n` entries
(the whole array when it is shorter than `n`). -/
def sliceLast (n : Nat) (l : List α) : List α := l.drop (l.length - n)

/-- The state of the `Telemetry` module for one page load: the in-memory
`buffer` array, the `localStorage` snapshot under `telemetry_buffer_v2`
(`none` = key absent or unparsable), the `enabled` flag and whether the
periodic interval is still installed. -/
structure TelState where
  buffer : List Event
  storage : Option (List Event)
  enabled : Bool
  timerActive : Bool
deriving Repr, DecidableEq

/-- `load()` from the source: parse the persisted snapshot, falling back
to the empty list when the key is absent or the JSON fails to parse. -/
def load (storage : Option (List Event)) : List Event := storage.getD []

/-- Module initialisation on a page load: `enabled = true`, the buffer is
`load()`ed from storage, and `setInterval` installs the periodic timer. -/
def initTel (storage : Option (List Event)) : TelState :=
  { buffer := load storage, storage := storage, enabled := true, timerActive := true }

/-- A fresh browser context: no persisted snapshot yet. -/
def initFresh : TelState := initTel none

/-- `save(arr)` from the source: persist `arr.slice(-BUF_MAX)`,
overwriting the previous snapshot. -/
def save (arr : List Event) (s : TelState) : TelState :=
  { s with storage := some (sliceLast BUF_MAX arr) }

/-- Result of an `enqueue` call: the new module state, and whether the
`localStorage.setItem` inside `save` threw an exception that escaped to
the caller (there is no try/catch on the write path in the source). -/
structure EnqResult where
  state : TelState
  threw : Bool
deriving Repr

/-- `enqueue(event)` from the source: push onto the in-memory buffer,
then `save(buffer)`. `writeOk` is the storage oracle: when the
underlying `setItem` fails, the exception propagates after the push. -/
def enqueue (writeOk : Bool) (e : Event) (s : TelState) : EnqResult :=
  let s1 := { s with buffer := s.buffer ++ [e] }
  if writeOk then ⟨save s1.buffer s1, false⟩ else ⟨s1, true⟩

/-- Outcome of the `fetch` performed by one flush attempt. -/
inductive FlushOutcome
  | ok2xx
  | non2xx
  | netError
deriving Repr, DecidableEq

/-- Result of a `flush()` call: the new state and whether a network
request was issued. -/
structure FlushResult where
  state : TelState
  networkCall : Bool
deriving Repr

/-- `flush()` from the source: no-op when disabled or empty; otherwise
POST the first 200 events and, on a 2xx response, drop that prefix and
re-save; on a non-2xx response or a thrown network error, set
`enabled = false` and `clearInterval` the periodic timer. -/
def flush (outcome : FlushOutcome) (s : TelState) : FlushResult :=
  if s.enabled = false then ⟨s, false⟩
  else if s.buffer = [] then ⟨s, false⟩
  else
    let batch := s.buffer.take 200
    match outcome with
    | .ok2xx =>
        let b := s.buffer.drop batch.length
        ⟨save b { s with buffer := b }, true⟩
    | .non2xx => ⟨{ s with enabled := false, timerActive := false }, true⟩
    | .netError => ⟨{ s with enabled := false, timerActive := false }, true⟩

/-- `isEnabled()` from the source. -/
def isEnabled (s : TelState) : Bool := s.enabled

/-- One session-level operation on the telemetry module: an `enqueue`
(with its storage-write oracle) or a `flush` attempt — the latter covers
both a periodic timer tick and a manual flush, which call the same
function. -/
inductive Op
  | enq (writeOk : Bool) (e : Event)
  | fl (outcome : FlushOutcome)

/-- Apply one operation to the module state. -/
def step (s : TelState) (o : Op) : TelState :=
  match o with
  | .enq w e => (enqueue w e s).state
  | .fl oc => (flush oc s).state

/-- Run a sequence of operations. -/
def runOps (s : TelState) (ops : List Op) : TelState := ops.foldl step s

/-- A sequence of successful `enqueue` calls (storage writes succeed). -/
def enqueueAll (es : List Event) (s : TelState) : TelState :=
  es.foldl (fun s e => (enqueue true e s).state) s

/-- `getSession()` from the source, over the `sessionStorage` cell: reuse
the stored identifier when present, otherwise store and return a freshly
generated one (`fresh` stands for the random token). Returns the
identifier together with the updated `sessionStorage` cell. -/
def getSession (fresh : String) (store : Option String) : String × Option String :=
  match store with
  | some s => (s, some s)
  | none => (fresh, some fresh)

/-- A full page reload: `localStorage` and `sessionStorage` survive, the
module-level variables are re-initialised (`enabled = true`, buffer
re-`load()`ed, interval re-installed). -/
def reload (s : TelState) : TelState := initTel s.storage

/-! ### Basic lemmas about the buffer state machine -/

theorem sliceLast_length (n : Nat) (l : List α) :
    (sliceLast n l).length = min n l.length := by
  simp [sliceLast]
  omega

theorem sliceLast_suffix (n : Nat) (l : List α) : sliceLast n l <:+ l :=
  List.drop_suffix _ _

theorem sliceLast_le (n : Nat) (l : List α) : (sliceLast n l).length ≤ n := by
  rw [sliceLast_length]; omega

theorem enqueueAll_buffer (es : List Event) (s : TelState) :
    (enqueueAll es s).buffer = s.buffer ++ es := by
  induction es generalizing s with
  | nil => simp [enqueueAll]
  | cons e es ih =>
      simp only [enqueueAll, List.foldl_cons] at *
      rw [ih]
      simp [enqueue, save]

theorem enqueueAll_storage (es : List Event) (s : TelState) (h : es ≠ []) :
    (enqueueAll es s).storage = some (sliceLast BUF_MAX (s.buffer ++ es)) := by
  induction es generalizing s with
  | nil => exact absurd rfl h
  | cons e es ih =>
      simp only [enqueueAll, List.foldl_cons]
      by_cases hes : es = []
      · subst hes
        simp [enqueueAll, enqueue, save]
      · have := ih ((enqueue true e s).state) hes
        simp only [enqueueAll] at this
        rw [this]
        simp [enqueue, save]

theorem enqueue_preserves_enabled (w : Bool) (e : Event) (s : TelState) :
    (enqueue w e s).state.enabled = s.enabled := by
  by_cases hw : w <;> simp [enqueue, save, hw]

theorem flush_disabled (oc : FlushOutcome) (s : TelState) (h : s.enabled = false) :
    flush oc s = ⟨s, false⟩ := by
  simp [flush, h]

theorem runOps_disabled (ops : List Op) (s : TelState) (h : s.enabled = false) :
    (runOps s ops).enabled = false := by
  induction ops generalizing s with
  | nil => exact h
  | cons o ops ih =>
      simp only [runOps, List.foldl_cons]
      apply ih
      cases o with
      | enq w e => rw [step, enqueue_preserves_enabled]; exact h
      | fl oc => simp [step, flush_disabled oc s h, h]

/-! ### Analytics aggregation (`buildAnalytics`) -/

/-- `acc[k] = (acc[k] || 0) + v` on a JavaScript object, with the
object's insertion-ordered keys modelled as an association list:
an existing key is updated in place, a new key is appended. -/
def bump (m : List (String × Nat)) (k : String) (v : Nat) : List (String × Nat) :=
  match m with
  | [] => [(k, v)]
  | (k', v') :: rest => if k' = k then (k', v' + v) :: rest else (k', v') :: bump rest k v

/-- `timePerHour[h] += ms` on the 24-bucket array, as an update of a
bucket-indexed function. -/
def addHour (f : Nat → Nat) (h : Nat) (ms : Nat) : Nat → Nat :=
  fun i => if i = h then f i + ms else f i

/-- Insert a `(hour, ms)` pair into a list already sorted by `ms`
descending, after all entries with `ms` at least as large: this is the
insertion step of a stable descending sort. -/
def insertDesc (x : Nat × Nat) : List (Nat × Nat) → List (Nat × Nat)
  | [] => [x]
  | y :: ys => if y.2 < x.2 then x :: y :: ys else y :: insertDesc x ys

/-- Stable sort by `ms` descending, processing elements left to right:
the model of the ECMAScript stable `Array.prototype.sort` with
comparator `(a, b) => b.ms - a.ms`. -/
def sortDesc (l : List (Nat × Nat)) : List (Nat × Nat) :=
  l.foldl (fun acc x => insertDesc x acc) []

/-- The record returned by `buildAnalytics`. -/
structure Analytics where
  completed : Nat
  pending : Nat
  statusCounts : List (String × Nat)
  timeByUserMs : List (String × Nat)
  throughputByDay : List (String × Nat)
  contextSwitchesToday : Nat
  optimalHours : List (Nat × Nat)
deriving Repr, DecidableEq

/-- `buildAnalytics(tasksList, events)` from the source. The two ambient
reads are explicit parameters: `todayStr` is
`new Date().toISOString().slice(0, 10)` and `hourOf` is
`s => new Date(s).getHours()` (local hour of a timestamp string). -/
def buildAnalytics (todayStr : String) (hourOf : String → Nat)
    (tasksList : List Task) (events : List Event) : Analytics :=
  let completed :=
    (tasksList.filter (fun t => t.status == "DONE" || t.status == "PASS")).length
  let pending := tasksList.length - completed
  let statusCounts := tasksList.foldl (fun acc t => bump acc t.status 1) []
  let timeByUserMs :=
    (events.filter (fun e => e.type == "time_spent")).foldl
      (fun acc e => bump acc (e.user.getD "anonymous") (msOf e)) []
  let throughputByDay := tasksList.foldl
    (fun acc t =>
      let d := (jsOr t.updated_at t.created_at).take 10
      if d == "" then acc
      else if t.status == "DONE" || t.status == "PASS" then bump acc d 1
      else acc) []
  let eventsToday := events.filter (fun e => e.«at».take 10 == todayStr)
  let contextSwitchesToday :=
    (eventsToday.filter (fun e =>
      e.type == "nav_switch" || e.type == "task_move" || e.type == "code_run")).length
  let timePerHour :=
    (events.filter (fun e => e.type == "time_spent")).foldl
      (fun f e => addHour f (hourOf e.«at») (msOf e)) (fun _ => 0)
  let rankedHours :=
    (sortDesc ((List.range 24).map (fun h => (h, timePerHour h)))).take 3
  { completed := completed
    pending := pending
    statusCounts := statusCounts
    timeByUserMs := timeByUserMs
    throughputByDay := throughputByDay
    contextSwitchesToday := contextSwitchesToday
    optimalHours := rankedHours }

/-- Total `data.ms` of the `time_spent` events whose timestamp falls in
hour-of-day bucket `h`: the independent characterisation of one entry of
the source's `timePerHour` array. -/
def hourMs (hourOf : String → Nat) (events : List Event) (h : Nat) : Nat :=
  (((events.filter (fun e => e.type == "time_spent")).filter
      (fun e => hourOf e.«at» == h)).map msOf).sum

/-- The strict ranking order on `(hour, ms)` pairs that the spec's
`optimalHours` description induces: larger total first, ties broken by
the lower hour number. -/
def lexGe (a b : Nat × Nat) : Prop := b.2 < a.2 ∨ (a.2 = b.2 ∧ a.1 < b.1)

/-! ### Lemmas about the stable descending sort -/

theorem mem_insertDesc (x z : Nat × Nat) (l : List (Nat × Nat)) :
    z ∈ insertDesc x l ↔ z = x ∨ z ∈ l := by
  induction l with
  | nil => simp [insertDesc]
  | cons y ys ih =>
      by_cases hc : y.2 < x.2
      · simp [insertDesc, hc]
      · simp [insertDesc, hc, ih]
        tauto

theorem insertDesc_perm (x : Nat × Nat) (l : List (Nat × Nat)) :
    List.Perm (insertDesc x l) (x :: l) := by
  induction l with
  | nil => exact List.Perm.refl _
  | cons y ys ih =>
      by_cases hc : y.2 < x.2
      · rw [insertDesc, if_pos hc]
      · rw [insertDesc, if_neg hc]
        exact (List.Perm.cons y ih).trans (List.Perm.swap x y ys)

theorem sortDesc_perm (l : List (Nat × Nat)) : List.Perm (sortDesc l) l := by
  suffices h : ∀ acc, List.Perm (l.foldl (fun acc x => insertDesc x acc) acc) (l ++ acc) by
    simpa using h []
  induction l with
  | nil => intro acc; simp
  | cons x l ih =>
      intro acc
      simp only [List.foldl_cons, List.cons_append]
      exact ((ih (insertDesc x acc)).trans
        (List.Perm.append_left l (insertDesc_perm x acc))).trans List.perm_middle

theorem insertDesc_pairwise (x : Nat × Nat) (l : List (Nat × Nat))
    (hl : l.Pairwise lexGe) (hx : ∀ y ∈ l, y.1 < x.1) :
    (insertDesc x l).Pairwise lexGe := by
  induction l with
  | nil => simp [insertDesc]
  | cons y ys ih =>
      rcases List.pairwise_cons.mp hl with ⟨hy, hys⟩
      by_cases hc : y.2 < x.2
      · rw [insertDesc, if_pos hc]
        refine List.pairwise_cons.mpr ⟨?_, hl⟩
        intro z hz
        rcases List.mem_cons.mp hz with rfl | hz
        · exact Or.inl hc
        · rcases hy z hz with h1 | ⟨h2, _⟩
          · exact Or.inl (by omega)
          · exact Or.inl (by omega)
      · rw [insertDesc, if_neg hc]
        refine List.pairwise_cons.mpr
          ⟨?_, ih hys (fun z hz => hx z (List.mem_cons_of_mem y hz))⟩
        intro z hz
        rcases (mem_insertDesc x z ys).mp hz with hzx | hz
        · subst hzx
          rcases Nat.lt_or_ge z.2 y.2 with h1 | h2
          · exact Or.inl h1
          · have h3 : y.2 = z.2 := by omega
            exact Or.inr ⟨h3, hx y (List.mem_cons_self y ys)⟩
        · exact hy z hz

theorem sortDesc_pairwise_aux (l : List (Nat × Nat))
    (h : l.Pairwise (fun a b => a.1 < b.1)) :
    ∀ acc, acc.Pairwise lexGe → (∀ y ∈ acc, ∀ x ∈ l, y.1 < x.1) →
      (l.foldl (fun acc x => insertDesc x acc) acc).Pairwise lexGe := by
  induction l with
  | nil => intro acc hacc _; simpa using hacc
  | cons x l ih =>
      intro acc hacc hlt
      rcases List.pairwise_cons.mp h with ⟨hx, hl⟩
      simp only [List.foldl_cons]
      refine ih hl (insertDesc x acc) ?_ ?_
      · exact insertDesc_pairwise x acc hacc
          (fun y hy => hlt y hy x (List.mem_cons_self x l))
      · intro y hy z hz
        rcases (mem_insertDesc x y acc).mp hy with rfl | hy
        · exact hx z hz
        · exact hlt y hy z (List.mem_cons_of_mem x hz)

theorem sortDesc_pairwise (l : List (Nat × Nat))
    (h : l.Pairwise (fun a b => a.1 < b.1)) : (sortDesc l).Pairwise lexGe :=
  sortDesc_pairwise_aux l h [] List.Pairwise.nil (by simp)

theorem addHour_foldl (hourOf : String → Nat) :
    ∀ (l : List Event) (f : Nat → Nat) (h : Nat),
      (l.foldl (fun g e => addHour g (hourOf e.«at») (msOf e)) f) h
        = f h + ((l.filter (fun e => hourOf e.«at» == h)).map msOf).sum := by
  intro l
  induction l with
  | nil => intro f h; simp
  | cons e l ih =>
      intro f h
      simp only [List.foldl_cons, List.filter_cons]
      by_cases hbe : hourOf e.«at» = h
      · rw [ih]
        simp [addHour, hbe]
        omega
      · rw [ih]
        simp [addHour, hbe, Ne.symm hbe]

theorem buildAnalytics_optimalHours (todayStr : String) (hourOf : String → Nat)
    (tasks : List Task) (events : List Event) :
    (buildAnalytics todayStr hourOf tasks events).optimalHours
      = (sortDesc ((List.range 24).map (fun h => (h, hourMs hourOf events h)))).take 3 := by
  simp only [buildAnalytics]
  have hfun :
      (fun h => (h, (events.filter (fun e => e.type == "time_spent")).foldl
          (fun f e => addHour f (hourOf e.«at») (msOf e)) (fun _ => 0) h))
        = fun h => (h, hourMs hourOf events h) := by
    funext h
    rw [addHour_foldl hourOf]
    simp [hourMs]
  rw [hfun]

/-! ### Suggestion engine (`ProactiveSuggestions`) -/

/-- The fixed low-completion-rate suggestion string. -/
def lowCompletionMsg : String :=
  "Throughput is below 50%. Limit WIP and swarm on blockers."

/-- The overdue-items suggestion, with the overdue count interpolated. -/
def overdueMsg (n : Nat) : String :=
  toString n ++ " overdue item(s). Reprioritize or split into smaller subtasks."

/-- The fixed high-context-switching suggestion string. -/
def contextSwitchMsg : String :=
  "High context switching today. Consider a 25-minute focus block to finish one task."

/-- `String.prototype.padStart(2, "0")`. -/
def padStart2 (s : String) : String :=
  if s.length < 2 then String.mk (List.replicate (2 - s.length) '0') ++ s else s

/-- The `fmt` hour-range formatter inside `ProactiveSuggestions`. -/
def fmtHour (h : Nat) : String :=
  padStart2 (toString h) ++ ":00–" ++ padStart2 (toString ((h + 1) % 24)) ++ ":00"

/-- `Array.prototype.join(", ")`. -/
def joinComma : List String → String
  | [] => ""
  | [x] => x
  | x :: xs => x ++ ", " ++ joinComma xs

/-- The focus-window suggestion naming the formatted top hours. -/
def focusMsg (hours : List Nat) : String :=
  "You focus best around " ++ joinComma (hours.map fmtHour)
    ++ ". Try scheduling deep work then."

/-- The fixed throughput-dip suggestion string. -/
def dipMsg : String :=
  "Throughput dipped vs. yesterday. Clear blockers and validate scope sizing."

/-- `arr[i] || 0` on a JavaScript number array: out-of-range (including
negative) indexing yields `undefined`, which `|| 0` turns into `0`. -/
def jsIdx (l : List Nat) (i : Int) : Nat :=
  if i < 0 then 0 else l.getD i.toNat 0

/-- The `analyticsData` object consumed by `ProactiveSuggestions`:
`kpis` is the `buildAnalytics` output, and the throughput series is the
day-sorted labels with their counts (built in `fetchAnalytics`). -/
structure AnalyticsData where
  kpis : Analytics
  throughputLabels : List String
  throughputData : List Nat
deriving Repr, DecidableEq

/-- The list of suggestion strings built by `ProactiveSuggestions`.
`isPast` is the ambient oracle for `new Date(t.deadline) < new Date()`. -/
def suggestionsOf (isPast : String → Bool) (ad : AnalyticsData)
    (tasks : List Task) : List String :=
  let total := tasks.length
  let completed := ad.kpis.completed
  let completionRate : ℚ := if 0 < total then ((completed : ℚ) / total) * 100 else 0
  let overdue := tasks.filter (fun t =>
    (match t.deadline with
     | some d => isPast d
     | none => false) && !(t.status == "DONE" || t.status == "PASS"))
  let r1 := if completionRate < 50 ∧ total > 10 then [lowCompletionMsg] else []
  let r2 := if overdue.length > 0 then [overdueMsg overdue.length] else []
  let r3 := if ad.kpis.contextSwitchesToday > 15 then [contextSwitchMsg] else []
  let topHours := ad.kpis.optimalHours.take 2
  let r4 := if topHours = [] then [] else [focusMsg (topHours.map Prod.fst)]
  let r5 :=
    if 3 ≤ ad.throughputLabels.length then
      let last := jsIdx ad.throughputData ((ad.throughputData.length : Int) - 1)
      let prev := jsIdx ad.throughputData ((ad.throughputData.length : Int) - 2)
      if last < prev then [dipMsg] else []
    else []
  r1 ++ r2 ++ r3 ++ r4 ++ r5

/-! ### The suggestion strings of the other rules never collide with the
low-completion-rate message -/

theorem mem_ite_nil_right {P : Prop} [Decidable P] (a : α) (l : List α) :
    a ∈ (if P then l else []) ↔ P ∧ a ∈ l := by
  split_ifs with h <;> simp [h]

theorem overdueMsg_ne (n : Nat) : overdueMsg n ≠ lowCompletionMsg := by
  intro heq
  have hlen := congrArg String.length heq
  simp only [overdueMsg, String.length_append] at hlen
  have h1 : (" overdue item(s). Reprioritize or split into smaller subtasks." :
      String).length = 62 := rfl
  have h2 : lowCompletionMsg.length = 57 := rfl
  omega

theorem padStart2_len (s : String) : 2 ≤ (padStart2 s).length := by
  by_cases h : s.length < 2
  · simp only [padStart2, if_pos h, String.length_append, String.length_mk,
      List.length_replicate]
    omega
  · simp only [padStart2, if_neg h]
    omega

theorem fmtHour_len (h : Nat) : 11 ≤ (fmtHour h).length := by
  have h1 := padStart2_len (toString h)
  have h2 := padStart2_len (toString ((h + 1) % 24))
  have h3 : ((":00–" : String)).length = 4 := rfl
  have h4 : ((":00" : String)).length = 3 := rfl
  simp only [fmtHour, String.length_append]
  omega

theorem joinComma_ge (x : String) (xs : List String) :
    x.length ≤ (joinComma (x :: xs)).length := by
  cases xs with
  | nil => simp [joinComma]
  | cons y ys =>
      simp only [joinComma, String.length_append]
      omega

theorem focusMsg_ne (hours : List Nat) (hne : hours ≠ []) :
    focusMsg hours ≠ lowCompletionMsg := by
  cases hours with
  | nil => exact absurd rfl hne
  | cons h hs =>
      intro heq
      have hlen := congrArg String.length heq
      simp only [focusMsg, String.length_append] at hlen
      have h1 : 11 ≤ (joinComma ((h :: hs).map fmtHour)).length :=
        le_trans (fmtHour_len h) (joinComma_ge (fmtHour h) (hs.map fmtHour))
      have ha : (("You focus best around " : String)).length = 22 := rfl
      have hb : ((". Try scheduling deep work then." : String)).length = 32 := rfl
      have hc : lowCompletionMsg.length = 57 := rfl
      omega

theorem contextSwitchMsg_ne : contextSwitchMsg ≠ lowCompletionMsg := by decide

theorem dipMsg_ne : dipMsg ≠ lowCompletionMsg := by decide

/-! ### Concrete fixtures -/

/-- A sample event used in witnesses and counterexamples. -/
def exEvent : Event :=
  { id := "i1", «at» := "2026-01-01T00:00:00Z", type := "search_tasks",
    session := "s1", user := none, data := ⟨none⟩ }

/-- A `nav_switch` event dated 2026-01-01, a context-switch type. -/
def exNavEvent : Event :=
  { id := "i2", «at» := "2026-01-01T10:00:00Z", type := "nav_switch",
    session := "s1", user := none, data := ⟨none⟩ }

/-- A telemetry state whose scheduler has been disabled by a failure. -/
def exDisabled : TelState :=
  { buffer := [exEvent], storage := some [exEvent], enabled := false, timerActive := false }

/-! ### Storage-cap invariant over all reachable states -/

/-- Every persisted snapshot the state may hold is within the cap. -/
def StorageBounded (s : TelState) : Prop :=
  ∀ l, s.storage = some l → l.length ≤ BUF_MAX

theorem step_storageBounded (s : TelState) (o : Op) (hs : StorageBounded s) :
    StorageBounded (step s o) := by
  cases o with
  | enq w e =>
      by_cases hw : w
      · intro l hl
        simp [step, enqueue, hw, save] at hl
        rw [← hl]
        exact sliceLast_le _ _
      · intro l hl
        simp [step, enqueue, hw] at hl
        exact hs l hl
  | fl oc =>
      intro l hl
      by_cases hen : s.enabled = false
      · rw [step, flush_disabled oc s hen] at hl
        exact hs l hl
      · by_cases hbuf : s.buffer = []
        · simp [step, flush, hen, hbuf] at hl
          exact hs l hl
        · cases oc with
          | ok2xx =>
              simp [step, flush, hen, hbuf, save] at hl
              rw [← hl]
              exact sliceLast_le _ _
          | non2xx =>
              simp [step, flush, hen, hbuf] at hl
              exact hs l hl
          | netError =>
              simp [step, flush, hen, hbuf] at hl
              exact hs l hl

theorem runOps_storageBounded (ops : List Op) (s : TelState) (hs : StorageBounded s) :
    StorageBounded (runOps s ops) := by
  induction ops generalizing s with
  | nil => exact hs
  | cons o ops ih =>
      simp only [runOps, List.foldl_cons]
      exact ih (step s o) (step_storageBounded s o hs)

/-- On a failing outcome from an enabled, nonempty-buffer state, `flush`
only flips `enabled` off and cancels the timer. -/
theorem flush_fail_state (s : TelState) (oc : FlushOutcome)
    (hoc : oc ≠ FlushOutcome.ok2xx) (hen : s.enabled = true) (hb : s.buffer ≠ []) :
    (flush oc s).state = { s with enabled := false, timerActive := false } ∧
    (flush oc s).networkCall = true := by
  cases oc with
  | ok2xx => exact absurd rfl hoc
  | non2xx => constructor <;> simp [flush, hen, hb]
  | netError => constructor <;> simp [flush, hen, hb]

/-! ### Claim theorems -/

/-- C1: starting from an empty buffer, after any (nonempty) sequence of
`enqueue` calls the persisted snapshot equals the last
`min(BUF_MAX, totalEnqueued)` enqueued events, in insertion order (it is
a suffix of the enqueue sequence); the newest-N eviction is applied by
the `save` inside every `enqueue`. -/
theorem enqueue_snapshot_is_lastN (es : List Event) (h : es ≠ []) :
    (enqueueAll es initFresh).storage = some (sliceLast BUF_MAX es) ∧
    (sliceLast BUF_MAX es).length = min BUF_MAX es.length ∧
    sliceLast BUF_MAX es <:+ es := by
  refine ⟨?_, sliceLast_length _ _, sliceLast_suffix _ _⟩
  have hst := enqueueAll_storage es initFresh h
  simpa [initFresh, initTel, load] using hst

theorem enqueue_snapshot_is_lastN_witness :
    (enqueueAll [exEvent] initFresh).storage = some [exEvent] := by
  have h := (enqueue_snapshot_is_lastN [exEvent] (by simp)).1
  simpa [sliceLast, BUF_MAX] using h

/-- C2: a failing flush attempt (non-2xx or network error) disables the
scheduler for the rest of the session: `isEnabled()` becomes false, the
periodic timer is cancelled, and after any further operations every
flush call — timer tick or manual — performs no network call and leaves
the state unchanged. -/
theorem flush_failure_disables (s : TelState) (oc : FlushOutcome)
    (hoc : oc ≠ FlushOutcome.ok2xx) (hen : s.enabled = true) (hb : s.buffer ≠ []) :
    isEnabled (flush oc s).state = false ∧
    (flush oc s).state.timerActive = false ∧
    ∀ ops : List Op,
      isEnabled (runOps (flush oc s).state ops) = false ∧
      ∀ oc' : FlushOutcome,
        (flush oc' (runOps (flush oc s).state ops)).networkCall = false ∧
        (flush oc' (runOps (flush oc s).state ops)).state
          = runOps (flush oc s).state ops := by
  have hst := (flush_fail_state s oc hoc hen hb).1
  have hdis : (flush oc s).state.enabled = false := by rw [hst]
  refine ⟨hdis, by rw [hst], ?_⟩
  intro ops
  have hthen : (runOps (flush oc s).state ops).enabled = false :=
    runOps_disabled ops _ hdis
  refine ⟨hthen, ?_⟩
  intro oc'
  rw [flush_disabled oc' _ hthen]
  exact ⟨rfl, rfl⟩

theorem flush_failure_disables_witness :
    isEnabled (flush FlushOutcome.non2xx (initTel (some [exEvent]))).state = false ∧
    (flush FlushOutcome.netError
        (runOps (flush FlushOutcome.non2xx (initTel (some [exEvent]))).state
          [Op.enq true exNavEvent])).networkCall = false := by
  have h := flush_failure_disables (initTel (some [exEvent])) FlushOutcome.non2xx
    (by decide) rfl (by simp [initTel, load])
  exact ⟨h.1, ((h.2.2 [Op.enq true exNavEvent]).2 FlushOutcome.netError).1⟩

/-- C6: the persisted buffer is capped: in every state reachable from a
fresh context the persisted snapshot holds at most `BUF_MAX` events, and
each `enqueue` persists a suffix (the newest entries, oldest dropped
first) of the in-memory sequence. -/
theorem buffer_capped :
    (∀ (ops : List Op) (l : List Event),
        (runOps initFresh ops).storage = some l → l.length ≤ BUF_MAX) ∧
    (∀ (s : TelState) (e : Event),
        (enqueue true e s).state.storage = some (sliceLast BUF_MAX (s.buffer ++ [e])) ∧
        sliceLast BUF_MAX (s.buffer ++ [e]) <:+ s.buffer ++ [e]) := by
  constructor
  · intro ops l hl
    have hinit : StorageBounded initFresh := by
      intro l' hl'
      simp [initFresh, initTel] at hl'
    exact runOps_storageBounded ops initFresh hinit l hl
  · intro s e
    exact ⟨rfl, sliceLast_suffix _ _⟩

/-- C7 counterexample: when the durable-storage write inside `enqueue`
fails, the exception escapes to the caller (`threw = true`) — the
operation is not swallowed as the claim states. -/
theorem enqueue_write_failure_throws :
    (enqueue false exEvent initFresh).threw = true := rfl

/-- C7 amended: if the storage write performed by `enqueue` fails, the
error propagates to the caller (there is no try/catch on the write
path), but the in-memory sequence still reflects the enqueued event and
the persisted snapshot is left as it was. -/
theorem enqueue_write_failure_propagates (e : Event) (s : TelState) :
    (enqueue false e s).threw = true ∧
    (enqueue false e s).state.buffer = s.buffer ++ [e] ∧
    (enqueue false e s).state.storage = s.storage :=
  ⟨rfl, rfl, rfl⟩

/-- C10: the DISABLED state does not survive a page reload — a freshly
loaded telemetry instance starts with `enabled = true` and the periodic
timer installed, even when the pre-reload state was disabled — while the
session identifier stored in `sessionStorage` is returned unchanged by
`getSession` across that reload. -/
theorem disabled_state_not_persisted (s : TelState) (h : s.enabled = false)
    (ss : Option String) (sid : String) (hss : ss = some sid) (fresh : String) :
    (reload s).enabled = true ∧ (reload s).timerActive = true ∧
    (getSession fresh ss).1 = sid ∧ (getSession fresh ss).2 = ss := by
  subst hss
  exact ⟨rfl, rfl, rfl, rfl⟩

theorem disabled_state_not_persisted_witness :
    (reload exDisabled).enabled = true ∧ (getSession "fresh" (some "sid0")).1 = "sid0" := by
  have h := disabled_state_not_persisted exDisabled rfl (some "sid0") "sid0" rfl "fresh"
  exact ⟨h.1, h.2.2.1⟩

/-- C3 counterexample: on empty inputs `buildAnalytics` does not return
an empty `optimalHours` list — the top-3 slice of the 24 all-zero hour
buckets is three zero-total entries. -/
theorem aggregate_empty_optimalHours_nonempty :
    (buildAnalytics "2026-10-11" (fun _ => 0) [] []).optimalHours ≠ [] := by decide

/-- C3 amended: `buildAnalytics` on an empty task list and an empty
event list returns zero counts and empty mappings, but `optimalHours` is
the first three zero-total hour buckets `[(0,0),(1,0),(2,0)]`, not the
empty list. -/
theorem aggregate_empty (todayStr : String) (hourOf : String → Nat) :
    buildAnalytics todayStr hourOf [] [] =
      { completed := 0, pending := 0, statusCounts := [], timeByUserMs := [],
        throughputByDay := [], contextSwitchesToday := 0,
        optimalHours := [(0, 0), (1, 0), (2, 0)] } := by
  have hoh : (sortDesc ((List.range 24).map (fun h => (h, (0 : Nat))))).take 3
      = [(0, 0), (1, 0), (2, 0)] := by decide
  simp [buildAnalytics, hoh]

/-- C4 counterexample: two runs of `buildAnalytics` on equal task and
event lists disagree when the ambient current date differs — the
function also reads `new Date()`, so it is not a function of its two
inputs alone. -/
theorem aggregate_ambient_date_dependent :
    buildAnalytics "2026-01-01" (fun _ => 0) [] [exNavEvent]
      ≠ buildAnalytics "2026-01-02" (fun _ => 0) [] [exNavEvent] := by decide

/-- C4 amended: `buildAnalytics` is deterministic given its two inputs
together with the ambient current date and the local-hour function (two
runs with equal inputs and equal ambient values yield equal results);
in this pure embedding it cannot and does not mutate either input. -/
theorem aggregate_deterministic (todayStr : String) (hourOf : String → Nat)
    (tasks tasks' : List Task) (events events' : List Event)
    (ht : tasks = tasks') (he : events = events') :
    buildAnalytics todayStr hourOf tasks events
      = buildAnalytics todayStr hourOf tasks' events' := by
  subst ht; subst he; rfl

theorem aggregate_deterministic_witness :
    buildAnalytics "2026-01-01" (fun _ => 0) [] [exNavEvent]
      = buildAnalytics "2026-01-01" (fun _ => 0) [] [exNavEvent] :=
  aggregate_deterministic "2026-01-01" (fun _ => 0) [] [] [exNavEvent] [exNavEvent] rfl rfl

/-- Hour lookup for the C5 example timestamps. -/
def exHourOf : String → Nat :=
  fun s => if s == "t14" then 14 else if s == "t9" then 9 else if s == "t20" then 20 else 0

/-- The C5 example: focus times 5000ms at hour 9, 9000ms at hour 14 and
1000ms at hour 20. -/
def exFocusEvents : List Event :=
  [ { id := "e1", «at» := "t9", type := "time_spent", session := "s",
      user := none, data := ⟨some 5000⟩ },
    { id := "e2", «at» := "t14", type := "time_spent", session := "s",
      user := none, data := ⟨some 9000⟩ },
    { id := "e3", «at» := "t20", type := "time_spent", session := "s",
      user := none, data := ⟨some 1000⟩ } ]

/-- C5: `optimalHours` is the top-3 slice of the 24 hour-of-day buckets
(bucket `h` totalling `data.ms` over the `time_spent` events with local
hour `h`) ordered by total descending with ties broken by the lower hour
first: the ranking is a permutation of the buckets that is pairwise
sorted for the order "larger total, or equal total and smaller hour";
on the example focus times the resulting hour order is `[14, 9, 20]`. -/
theorem optimalHours_top3 (todayStr : String) (hourOf : String → Nat)
    (tasks : List Task) (events : List Event) :
    ((buildAnalytics todayStr hourOf tasks events).optimalHours
        = (sortDesc ((List.range 24).map (fun h => (h, hourMs hourOf events h)))).take 3 ∧
      List.Perm (sortDesc ((List.range 24).map (fun h => (h, hourMs hourOf events h))))
        ((List.range 24).map (fun h => (h, hourMs hourOf events h))) ∧
      (sortDesc ((List.range 24).map
          (fun h => (h, hourMs hourOf events h)))).Pairwise lexGe) ∧
    (buildAnalytics "2026-10-11" exHourOf [] exFocusEvents).optimalHours.map Prod.fst
        = [14, 9, 20] := by
  refine ⟨⟨buildAnalytics_optimalHours _ _ _ _, sortDesc_perm _, ?_⟩, by decide⟩
  apply sortDesc_pairwise
  exact List.pairwise_map.mpr (List.pairwise_lt_range 24)

/-- The C8 example task list with statuses DONE, TODO, PASS. -/
def exStatusTasks : List Task :=
  [ { status := "DONE", updated_at := "", created_at := "", deadline := none },
    { status := "TODO", updated_at := "", created_at := "", deadline := none },
    { status := "PASS", updated_at := "", created_at := "", deadline := none } ]

/-- C8: `completed` counts exactly the tasks whose status is one of the
two terminal-success statuses `DONE` and `PASS`, and `pending` is the
remaining count (`completed + pending = total`); on statuses
`[DONE, TODO, PASS]` this gives `completed = 2`, `pending = 1`. -/
theorem completed_pending_counts (todayStr : String) (hourOf : String → Nat)
    (tasks : List Task) (events : List Event) :
    ((buildAnalytics todayStr hourOf tasks events).completed
        = (tasks.filter (fun t => t.status == "DONE" || t.status == "PASS")).length ∧
      (buildAnalytics todayStr hourOf tasks events).completed
        + (buildAnalytics todayStr hourOf tasks events).pending = tasks.length) ∧
    ((buildAnalytics "d" (fun _ => 0) exStatusTasks []).completed = 2 ∧
      (buildAnalytics "d" (fun _ => 0) exStatusTasks []).pending = 1) := by
  refine ⟨⟨rfl, ?_⟩, by decide⟩
  have hle := List.length_filter_le
    (fun t => t.status == "DONE" || t.status == "PASS") tasks
  simp only [buildAnalytics]
  omega

/-! ### The C9 membership characterisation -/

theorem mem_ite_nil_left {P : Prop} [Decidable P] (a : α) (l : List α) :
    a ∈ (if P then [] else l) ↔ ¬P ∧ a ∈ l := by
  split_ifs with h <;> simp [h]

/-- The low-completion-rate message appears in the suggestion list
exactly when the completion rate is below 50% and there are more than 10
tasks. -/
theorem lowCompletion_mem_iff (isPast : String → Bool) (ad : AnalyticsData)
    (tasks : List Task) :
    lowCompletionMsg ∈ suggestionsOf isPast ad tasks ↔
      ((if 0 < tasks.length then ((ad.kpis.completed : ℚ) / (tasks.length : ℚ)) * 100
          else 0) < 50
        ∧ tasks.length > 10) := by
  constructor
  · intro hmem
    simp only [suggestionsOf] at hmem
    rcases List.mem_append.mp hmem with hmem | h5
    · rcases List.mem_append.mp hmem with hmem | h4
      · rcases List.mem_append.mp hmem with hmem | h3
        · rcases List.mem_append.mp hmem with h1 | h2
          · rw [mem_ite_nil_right] at h1
            exact h1.1
          · rw [mem_ite_nil_right] at h2
            exact absurd (List.mem_singleton.mp h2.2).symm (overdueMsg_ne _)
        · rw [mem_ite_nil_right] at h3
          exact absurd (List.mem_singleton.mp h3.2).symm contextSwitchMsg_ne
      · rw [mem_ite_nil_left] at h4
        refine absurd (List.mem_singleton.mp h4.2).symm (focusMsg_ne _ ?_)
        intro hmap
        exact h4.1 (List.map_eq_nil_iff.mp hmap)
    · rw [mem_ite_nil_right] at h5
      rw [mem_ite_nil_right] at h5
      exact absurd (List.mem_singleton.mp h5.2.2).symm dipMsg_ne
  · intro hc
    simp only [suggestionsOf]
    refine List.mem_append_left _ (List.mem_append_left _ (List.mem_append_left _
      (List.mem_append_left _ ?_)))
    exact (mem_ite_nil_right _ _).mpr ⟨hc, List.mem_singleton.mpr rfl⟩

/-- Eleven tasks and a completion count of 5: rate 5/11 below 50%. -/
def exTasks11 : List Task :=
  List.replicate 11 { status := "TODO", updated_at := "", created_at := "", deadline := none }

/-- The analytics data seen by `ProactiveSuggestions` in the C9 example
with 11 tasks. -/
def exAd11 : AnalyticsData :=
  { kpis := { completed := 5, pending := 6, statusCounts := [], timeByUserMs := [],
              throughputByDay := [], contextSwitchesToday := 0, optimalHours := [] },
    throughputLabels := [], throughputData := [] }

/-- Five tasks and a completion count of 2: rate 2/5 below 50%, but the
task count is at the wrong side of the size threshold. -/
def exTasks5 : List Task :=
  List.replicate 5 { status := "TODO", updated_at := "", created_at := "", deadline := none }

/-- The analytics data for the C9 example with 5 tasks. -/
def exAd5 : AnalyticsData :=
  { kpis := { completed := 2, pending := 3, statusCounts := [], timeByUserMs := [],
              throughputByDay := [], contextSwitchesToday := 0, optimalHours := [] },
    throughputLabels := [], throughputData := [] }

/-- C9: the suggestion output includes the low-completion-rate message
exactly when `completed/total < 50%` and `total > 10`; with `total = 11`
and a below-half rate the message is present, and with `total = 5` it is
absent at a below-half rate. -/
theorem suggest_low_completion_rule :
    (∀ (isPast : String → Bool) (ad : AnalyticsData) (tasks : List Task),
        lowCompletionMsg ∈ suggestionsOf isPast ad tasks ↔
          ((if 0 < tasks.length then ((ad.kpis.completed : ℚ) / tasks.length) * 100
              else 0) < 50
            ∧ 10 < tasks.length)) ∧
    lowCompletionMsg ∈ suggestionsOf (fun _ => false) exAd11 exTasks11 ∧
    lowCompletionMsg ∉ suggestionsOf (fun _ => false) exAd5 exTasks5 := by
  refine ⟨lowCompletion_mem_iff, ?_, ?_⟩
  · rw [lowCompletion_mem_iff]
    constructor
    · norm_num [exTasks11, exAd11]
    · norm_num [exTasks11]
  · rw [lowCompletion_mem_iff]
    intro hcon
    have := hcon.2
    norm_num [exTasks5] at this

end TaskFlow
